import Mathlib

/-!
Shallow embedding of the booking/availability/pricing core of the
sports-nest-backend repository (Express + Mongoose), and proofs about it.

Conventions used throughout:
* Timestamps are modelled as integers counting milliseconds since the Unix
  epoch (the value of a JavaScript `Date`), interpreted in UTC.
* Clock times that the source keeps as zero-padded "HH:MM" strings
  (operating hours, pricing-rule windows) are modelled as minutes since
  midnight; lexicographic comparison of zero-padded "HH:MM" strings agrees
  with numeric comparison of minutes-since-midnight.
* JavaScript numbers are modelled as rationals where the source divides
  (durations in hours/minutes, prices), and as integers elsewhere.
* Mongo documents are modelled as Lean structures, collections as lists,
  and queries as list filters; `undefined`/absent fields are `Option`.
-/

/-- Milliseconds in one minute. -/
def msPerMinute : ℤ := 60000

/-- Milliseconds in one hour. -/
def msPerHour : ℤ := 3600000

/-- Milliseconds in one day. -/
def msPerDay : ℤ := 86400000

/-- Day number of a timestamp: the calendar day it falls on (floor division,
matching how a JavaScript `Date` truncates toward past days also for times
before the epoch). Two timestamps have equal `dayNumber` exactly when
`toISOString().split('T')[0]` agrees on them. -/
def dayNumber (t : ℤ) : ℤ := t.fdiv msPerDay

/-- Weekday of a timestamp, 0 = Sunday .. 6 = Saturday, as JavaScript
`Date.getDay` (in UTC): the epoch day 1970-01-01 was a Thursday (= 4). -/
def weekday (t : ℤ) : ℤ := (dayNumber t + 4) % 7

/-- Minutes since midnight of a timestamp; the source builds the string
getHours ++ ":" ++ getMinutes and compares it lexicographically, which for
zero-padded strings is comparison of this number. -/
def minuteOfDay (t : ℤ) : ℤ := (t % msPerDay).fdiv msPerMinute

/-- JavaScript `Math.round`: round half toward positive infinity. -/
def jsRound (q : ℚ) : ℤ := ⌊q + 1/2⌋

/-- Booking status strings of the Booking schema. -/
inductive BookingStatus where
  | pendingConfirmation
  | confirmed
  | inProgress
  | completed
  | cancelled
  | noShow
  | expired
deriving DecidableEq, Repr

/-- Statuses treated as occupying the court in `checkConflicts`:
the `$in` list `['pending-confirmation', 'confirmed', 'in-progress']`. -/
def occupying (s : BookingStatus) : Bool :=
  s == BookingStatus.pendingConfirmation || s == BookingStatus.confirmed ||
    s == BookingStatus.inProgress

/-- The fields of a Booking document that the verified core reads or writes.
`pricingTotal` is `pricing.totalAmount`. -/
structure Booking where
  id : ℕ
  user : ℕ
  court : ℕ
  startTime : ℤ
  endTime : ℤ
  duration : ℤ
  status : BookingStatus
  pricingTotal : ℚ
  checkInTime : Option ℤ
  checkInVerifiedBy : Option ℕ
deriving DecidableEq, Repr

/-- The four-branch `$or` of `bookingSchema.statics.checkConflicts`,
evaluated on a stored booking `b` against the requested `[s, e)`:
`{startTime: {$lte: s}, endTime: {$gt: s}}` or
`{startTime: {$lt: e}, endTime: {$gte: e}}` or
`{startTime: {$gte: s}, endTime: {$lte: e}}` or
`{startTime: {$lte: s}, endTime: {$gte: e}}`. -/
def conflictBranches (s e : ℤ) (b : Booking) : Bool :=
  (decide (b.startTime ≤ s) && decide (s < b.endTime)) ||
  (decide (b.startTime < e) && decide (e ≤ b.endTime)) ||
  (decide (s ≤ b.startTime) && decide (b.endTime ≤ e)) ||
  (decide (b.startTime ≤ s) && decide (e ≤ b.endTime))

/-- `Booking.checkConflicts(courtId, startTime, endTime, excludeBookingId)`:
the Mongo query over the booking collection, as a filter over the stored
bookings. -/
def checkConflicts (stored : List Booking) (courtId : ℕ) (s e : ℤ)
    (excludeBookingId : Option ℕ) : List Booking :=
  stored.filter fun b =>
    b.court == courtId && occupying b.status && conflictBranches s e b &&
      (match excludeBookingId with
       | some i => b.id != i
       | none => true)

/-- Court status strings of the Court schema. -/
inductive CourtStatus where
  | active
  | inactive
  | maintenance
  | temporarilyClosed
deriving DecidableEq, Repr

/-- A pricing rule of the Court schema. `startTime`/`endTime` are the
"HH:MM" window bounds in minutes since midnight; `none` models an absent
(falsy) field. -/
structure PricingRule where
  name : String
  baseRate : ℚ
  startDate : Option ℤ
  endDate : Option ℤ
  daysOfWeek : List ℤ
  startTime : Option ℤ
  endTime : Option ℤ
  priority : ℤ
  isActive : Bool
deriving DecidableEq, Repr

/-- Discount categories the source inspects in `calculatePrice`; every other
enum value of the schema behaves identically, collapsed into `other`. -/
inductive DiscountCategory where
  | membership
  | group
  | earlyBird
  | other
deriving DecidableEq, Repr

/-- Percentage versus fixed discount. -/
inductive DiscountValueType where
  | percentage
  | fixed
deriving DecidableEq, Repr

/-- A discount rule of the Court schema. -/
structure DiscountRule where
  category : DiscountCategory
  discountType : DiscountValueType
  value : ℚ
  minGroupSize : Option ℤ
  membershipTier : Option String
  isActive : Bool
deriving DecidableEq, Repr

/-- One weekly operating-hours entry; open/close in minutes since
midnight. -/
structure OperatingHoursEntry where
  dayOfWeek : ℤ
  openTime : ℤ
  closeTime : ℤ
  isClosed : Bool
deriving DecidableEq, Repr

/-- An availability exception of the Court schema; `date` is a timestamp
whose calendar day is what `isAvailableForSlot` matches on. -/
structure AvailabilityException where
  date : ℤ
  isAvailable : Bool
  reason : Option String
deriving DecidableEq, Repr

/-- The `bookingSettings` subdocument fields the verified core reads. -/
structure BookingSettings where
  minBookingDuration : ℤ
  maxBookingDuration : ℤ
  maxConcurrentBookingsPerUser : ℕ
  allowRecurringBookings : Bool
  requiresApproval : Bool
deriving DecidableEq, Repr

/-- The fields of a Court document that the verified core reads. -/
structure Court where
  baseHourlyRate : ℚ
  pricingRules : List PricingRule
  discountRules : List DiscountRule
  operatingHours : List OperatingHoursEntry
  availabilityExceptions : List AvailabilityException
  bookingSettings : BookingSettings
  status : CourtStatus
deriving DecidableEq, Repr

/-- The pricing-rule filter of `Court.methods.calculatePrice`: active, date
range (inclusive at both bounds) contains `startTime`, day-of-week list (when
non-empty) contains its weekday, and "HH:MM" window (each bound only when
present) contains its clock time, the upper bound inclusively. -/
def ruleApplies (r : PricingRule) (t : ℤ) : Bool :=
  r.isActive &&
  (match r.startDate with
   | some d => !decide (t < d)
   | none => true) &&
  (match r.endDate with
   | some d => !decide (d < t)
   | none => true) &&
  (r.daysOfWeek.isEmpty || r.daysOfWeek.contains (weekday t)) &&
  (match r.startTime with
   | some st => !decide (minuteOfDay t < st)
   | none => true) &&
  (match r.endTime with
   | some et => !decide (et < minuteOfDay t)
   | none => true)

/-- The options object passed to `calculatePrice`; `none` models an absent
or falsy field. -/
structure PriceOptions where
  membershipTier : Option String
  groupSize : Option ℤ
  isEarlyBird : Bool
deriving DecidableEq, Repr

/-- Truthiness of `options.membershipTier || options.groupSize ||
options.isEarlyBird` guarding the discount block (a numeric 0 is falsy). -/
def priceOptionsTruthy (o : PriceOptions) : Bool :=
  o.membershipTier.isSome ||
  (match o.groupSize with
   | some g => !(g == 0)
   | none => false) ||
  o.isEarlyBird

/-- The discount filter of `calculatePrice`. A comparison with an absent
operand (`undefined`) is false in JavaScript; strict equality of two absent
`membershipTier`s is true. -/
def discountMatches (o : PriceOptions) (d : DiscountRule) : Bool :=
  d.isActive &&
  ((d.category == DiscountCategory.membership &&
      o.membershipTier == d.membershipTier) ||
   (d.category == DiscountCategory.group &&
      (match o.groupSize, d.minGroupSize with
       | some g, some m => decide (m ≤ g)
       | _, _ => false)) ||
   (d.category == DiscountCategory.earlyBird && o.isEarlyBird))

/-- One step of the discount `forEach`: percentage discounts subtract
`value%` of the running total, fixed discounts subtract `value`. -/
def applyDiscount (total : ℚ) (d : DiscountRule) : ℚ :=
  if d.discountType == DiscountValueType.percentage then
    total - total * d.value / 100
  else
    total - d.value

/-- The comparator `(a, b) => b.priority - a.priority` sorts descending by
priority; modelled as a stable merge sort with this relation. -/
def byPriorityDesc (a b : PricingRule) : Bool := decide (b.priority ≤ a.priority)

/-- `Court.methods.calculatePrice(startTime, endTime, options)`. -/
def calculatePrice (c : Court) (startTime endTime : ℤ) (o : PriceOptions) : ℚ :=
  let duration : ℚ := ((endTime - startTime : ℤ) : ℚ) / (msPerHour : ℚ)
  let applicableRules :=
    (c.pricingRules.filter fun r => ruleApplies r startTime).mergeSort
      byPriorityDesc
  let baseRate :=
    match applicableRules.head? with
    | some r => r.baseRate
    | none => c.baseHourlyRate
  let totalPrice := baseRate * duration
  let totalPrice :=
    if priceOptionsTruthy o then
      (c.discountRules.filter fun d => discountMatches o d).foldl
        applyDiscount totalPrice
    else totalPrice
  max 0 totalPrice

/-- Result object of `isAvailableForSlot`. -/
structure AvailResult where
  available : Bool
  reason : Option String
deriving DecidableEq, Repr

/-- `Court.methods.isAvailableForSlot(startTime, endTime)`: status, weekly
operating hours for the start's weekday, start clock time in [open, close),
then a calendar-date availability exception with `isAvailable` false; the
`endTime` argument is received but never consulted. -/
def isAvailableForSlot (c : Court) (startTime endTime : ℤ) : AvailResult :=
  let dow := weekday startTime
  let tm := minuteOfDay startTime
  if c.status != CourtStatus.active then
    { available := false, reason := some "Court is not active" }
  else
    match c.operatingHours.find? fun oh => oh.dayOfWeek == dow with
    | none => { available := false, reason := some "Court is closed on this day" }
    | some oh =>
      if oh.isClosed then
        { available := false, reason := some "Court is closed on this day" }
      else if tm < oh.openTime || oh.closeTime ≤ tm then
        { available := false, reason := some "Outside operating hours" }
      else
        match c.availabilityExceptions.find? fun exc =>
            dayNumber exc.date == dayNumber startTime with
        | some exc =>
          if !exc.isAvailable then
            { available := false,
              reason := some ((exc.reason).getD "Court is unavailable on this date") }
          else { available := true, reason := none }
        | none => { available := true, reason := none }

/-- Result object of `Booking.methods.calculateCancellationRefund`. -/
structure RefundResult where
  refundEligible : Bool
  refundPercentage : ℚ
  refundAmount : ℚ
  cancellationFee : ℚ
  hoursUntilBooking : ℚ
deriving DecidableEq, Repr

/-- `Booking.methods.calculateCancellationRefund`, as a function of the
clock value `now`, the booking's `startTime`, and `pricing.totalAmount`. -/
def calculateCancellationRefund (now startTime : ℤ) (totalAmount : ℚ) :
    RefundResult :=
  let hoursUntilBooking : ℚ := ((startTime - now : ℤ) : ℚ) / (msPerHour : ℚ)
  let refundPercentage : ℚ :=
    if 24 ≤ hoursUntilBooking then 100
    else if 12 ≤ hoursUntilBooking then 75
    else if 6 ≤ hoursUntilBooking then 50
    else if 2 ≤ hoursUntilBooking then 25
    else 0
  let refundAmount := totalAmount * refundPercentage / 100
  { refundEligible := decide (0 < refundPercentage)
    refundPercentage := refundPercentage
    refundAmount := refundAmount
    cancellationFee := totalAmount - refundAmount
    hoursUntilBooking := (jsRound (hoursUntilBooking * 10) : ℚ) / 10 }

/-- The duration part of `bookingSchema.pre('save')`: when `startTime` or
`endTime` was modified, set `duration = Math.round((endTime - startTime) /
(1000 * 60))`. (The booking-number and isPaid parts of the hook touch no
field the verified claims mention.) -/
def preSaveDuration (b : Booking) (modifiedStart modifiedEnd : Bool) : Booking :=
  if modifiedStart || modifiedEnd then
    { b with duration := jsRound (((b.endTime - b.startTime : ℤ) : ℚ) / (msPerMinute : ℚ)) }
  else b

/-- Roles of the requesting user that `checkIn` distinguishes. -/
inductive Role where
  | user
  | owner
  | manager
  | admin
deriving DecidableEq, Repr

/-- Outcomes of the `checkIn` controller, one per early return. -/
inductive CheckInOutcome where
  | notFound
  | notAuthorized
  | notConfirmed
  | tooEarly
  | success
deriving DecidableEq, Repr

/-- The field update `checkIn` performs on success. -/
def applyCheckIn (b : Booking) (now : ℤ) (actorId : ℕ) : Booking :=
  { b with
    checkInTime := some now
    checkInVerifiedBy := some actorId
    status := BookingStatus.inProgress }

/-- `bookingController.checkIn`: find the booking, authorize (owner of the
booking, or manager/admin), require status confirmed, and reject with
"Check-in is only allowed 15 minutes before booking start time" exactly when
`(startTime - now) / 60000 > 15`; otherwise record the check-in and set the
status to in-progress. Returns the outcome and the updated collection. -/
def checkIn (stored : List Booking) (bookingId actorId : ℕ) (role : Role)
    (now : ℤ) : CheckInOutcome × List Booking :=
  match stored.find? fun b => b.id == bookingId with
  | none => (CheckInOutcome.notFound, stored)
  | some b =>
    let isOwner := b.user == actorId
    let isStaff := role == Role.manager || role == Role.admin
    if !(isOwner || isStaff) then (CheckInOutcome.notAuthorized, stored)
    else if b.status != BookingStatus.confirmed then
      (CheckInOutcome.notConfirmed, stored)
    else if 15 < (((b.startTime - now : ℤ) : ℚ) / (msPerMinute : ℚ)) then
      (CheckInOutcome.tooEarly, stored)
    else
      (CheckInOutcome.success,
        stored.map fun x => if x.id == bookingId then applyCheckIn x now actorId else x)

/-- One slot produced by `findAvailableSlots`. -/
structure Slot where
  startTime : ℤ
  endTime : ℤ
  available : Bool
deriving DecidableEq, Repr

/-- The `bookings.some(...)` test of `findAvailableSlots` for the candidate
slot `[ss, se)` against a booking of the day:
`(currentSlot >= b.startTime && currentSlot < b.endTime) ||
 (slotEnd > b.startTime && slotEnd <= b.endTime) ||
 (currentSlot <= b.startTime && slotEnd >= b.endTime)`. -/
def slotOverlapsBooking (ss se : ℤ) (b : Booking) : Bool :=
  (decide (b.startTime ≤ ss) && decide (ss < b.endTime)) ||
  (decide (b.startTime < se) && decide (se ≤ b.endTime)) ||
  (decide (ss ≤ b.startTime) && decide (b.endTime ≤ se))

/-- The `while (currentSlot < closeTime)` loop of `findAvailableSlots`:
candidates step by `intervalMs`; a candidate whose end exceeds the close
time is dropped (the loop still advances). The loop of the source never
terminates for a non-positive interval, so the embedding carries an explicit
iteration bound, chosen by `findAvailableSlots` large enough to be
unreachable for any positive interval. -/
def slotLoop (dayBookings : List Booking) (intervalMs closeTime : ℤ) :
    ℕ → ℤ → List Slot
  | 0, _ => []
  | Nat.succ gas, currentSlot =>
    if currentSlot < closeTime then
      let slotEnd := currentSlot + intervalMs
      if slotEnd ≤ closeTime then
        { startTime := currentSlot, endTime := slotEnd,
          available := !(dayBookings.any fun b => slotOverlapsBooking currentSlot slotEnd b) } ::
          slotLoop dayBookings intervalMs closeTime gas slotEnd
      else slotLoop dayBookings intervalMs closeTime gas slotEnd
    else []

/-- `Booking.statics.findAvailableSlots(courtId, date, interval)`. The day's
bookings are those of the court in an occupying status whose interval lies
inside the day (the source bounds them by 00:00:00.000 and 23:59:59.999);
the slot grid runs from the day's open time while slot ends fit before the
close time. `interval` is in minutes (source default 30). -/
def findAvailableSlots (c : Court) (stored : List Booking) (courtId : ℕ)
    (date : ℤ) (interval : ℤ) : List Slot :=
  let dayStart := dayNumber date * msPerDay
  let dayEnd := dayStart + (msPerDay - 1)
  let dayBookings := stored.filter fun b =>
    b.court == courtId && occupying b.status &&
      decide (dayStart ≤ b.startTime) && decide (b.endTime ≤ dayEnd)
  let dow := weekday dayStart
  match c.operatingHours.find? fun oh => oh.dayOfWeek == dow with
  | none => []
  | some oh =>
    if oh.isClosed then []
    else
      let openT := dayStart + oh.openTime * msPerMinute
      let closeT := dayStart + oh.closeTime * msPerMinute
      slotLoop dayBookings (interval * msPerMinute) closeT
        ((closeT - openT).toNat + 1) openT

/-- Civil-calendar date (year, month 1..12, day) of a day number, the
standard era-based conversion a JavaScript `Date` performs (in UTC). -/
def civilFromDays (z : ℤ) : ℤ × ℤ × ℤ :=
  let z := z + 719468
  let era := z.fdiv 146097
  let doe := z - era * 146097
  let yoe := (doe - doe / 1460 + doe / 36524 - doe / 146096) / 365
  let y := yoe + era * 400
  let doy := doe - (365 * yoe + yoe / 4 - yoe / 100)
  let mp := (5 * doy + 2) / 153
  let d := doy - (153 * mp + 2) / 5 + 1
  let m := mp + (if mp < 10 then 3 else -9)
  (y + (if m ≤ 2 then 1 else 0), m, d)

/-- Day number of a civil date; linear in `d`, so a day beyond the month's
length rolls over into the following months exactly as a JavaScript `Date`
normalizes out-of-range components. -/
def daysFromCivil (y m d : ℤ) : ℤ :=
  let y := y - (if m ≤ 2 then 1 else 0)
  let era := y.fdiv 400
  let yoe := y - era * 400
  let doy := (153 * (m + (if 2 < m then -3 else 9)) + 2) / 5 + d - 1
  let doe := yoe * 365 + yoe / 4 - yoe / 100 + doy
  era * 146097 + doe

/-- `d.setMonth(d.getMonth() + k)` on a timestamp: move `k` months keeping
the day-of-month (rolling over when the target month is shorter) and the
time of day. -/
def jsAddMonths (t k : ℤ) : ℤ :=
  let day := t.fdiv msPerDay
  let timeOfDay := t % msPerDay
  let c := civilFromDays day
  let total := c.1 * 12 + (c.2.1 - 1) + k
  let y := total.fdiv 12
  let m := total % 12 + 1
  daysFromCivil y m c.2.2 * msPerDay + timeOfDay

/-- Recurring-pattern frequency strings. -/
inductive Frequency where
  | daily
  | weekly
  | monthly
deriving DecidableEq, Repr

/-- The `recurringPattern` subdocument of a Booking. -/
structure RecurringPattern where
  frequency : Frequency
  interval : Option ℤ
  daysOfWeek : List ℤ
  endDate : Option ℤ
  occurrences : Option ℕ
deriving DecidableEq, Repr

/-- `interval || 1` — a missing or zero interval multiplier becomes 1. -/
def patternInterval (p : RecurringPattern) : ℤ :=
  match p.interval with
  | some n => if n == 0 then 1 else n
  | none => 1

/-- `occurrences || 52` — a missing or zero occurrence count becomes 52;
a present non-zero count is used as given, with no upper cap. -/
def maxOccurrences (p : RecurringPattern) : ℕ :=
  match p.occurrences with
  | some n => if n == 0 then 52 else n
  | none => 52

/-- One date advance of the expansion loop: daily adds `interval` days,
weekly adds `7 * interval` days, monthly moves `interval` months. -/
def advanceDate (f : Frequency) (interval t : ℤ) : ℤ :=
  match f with
  | Frequency.daily => t + interval * msPerDay
  | Frequency.weekly => t + 7 * interval * msPerDay
  | Frequency.monthly => jsAddMonths t interval

/-- The child occurrence persisted for one conflict-free date: a copy of the
parent with the shifted interval, saved through the pre-save hook (both time
fields are new, so the duration is recomputed). The database assigns the
copy a fresh id; it is modelled from the occurrence index and no claim
depends on it. -/
def childBooking (parent : Booking) (count : ℕ) (ns ne : ℤ) : Booking :=
  preSaveDuration
    { parent with id := 1000000 + count, startTime := ns, endTime := ne }
    true true

/-- The `while (count < maxOccurrences)` loop of
`generateRecurringBookings`: advance the date first; stop past the end date;
`continue` (without counting) when a day-of-week filter is present and does
not contain the advanced date's weekday; otherwise conflict-check the shifted
interval against the collection (the previously persisted occurrences
included) and persist it only when conflict-free. The source loop need not
terminate, so the embedding takes explicit fuel and answers `none` when the
fuel is exhausted before the loop exits. -/
def genRecLoop (pat : RecurringPattern) (courtId : ℕ) (stored : List Booking)
    (parent : Booking) (durationMs : ℤ) :
    ℕ → ℤ → ℕ → List Booking → Option (List Booking)
  | 0, _, count, acc =>
    if maxOccurrences pat ≤ count then some acc else none
  | Nat.succ fuel, currentDate, count, acc =>
    if maxOccurrences pat ≤ count then some acc
    else
      let next := advanceDate pat.frequency (patternInterval pat) currentDate
      if (match pat.endDate with
          | some ed => decide (ed < next)
          | none => false) then some acc
      else if !pat.daysOfWeek.isEmpty && !pat.daysOfWeek.contains (weekday next) then
        genRecLoop pat courtId stored parent durationMs fuel next count acc
      else
        let ne := next + durationMs
        if (checkConflicts (stored ++ acc) courtId next ne none).length == 0 then
          genRecLoop pat courtId stored parent durationMs fuel next (count + 1)
            (acc ++ [childBooking parent count next ne])
        else
          genRecLoop pat courtId stored parent durationMs fuel next count acc

/-- `generateRecurringBookings(parentBooking, court)`: expand the parent's
recurring pattern starting from its start time, keeping its duration in
milliseconds. `fuel` bounds the number of loop iterations of the embedding;
`none` means the source loop has not exited within that many iterations. -/
def generateRecurringBookings (fuel : ℕ) (parent : Booking)
    (pat : RecurringPattern) (courtId : ℕ) (stored : List Booking) :
    Option (List Booking) :=
  genRecLoop pat courtId stored parent (parent.endTime - parent.startTime)
    fuel parent.startTime 0 []

/-- Booking type strings. -/
inductive BookingType where
  | single
  | recurring
deriving DecidableEq, Repr

/-- The parts of a create-booking request that the controller reads.
`validationOk` is whether the express-validator result was empty. -/
structure CreateRequest where
  validationOk : Bool
  court : ℕ
  startTime : ℤ
  endTime : ℤ
  bookingType : BookingType
  recurringPattern : Option RecurringPattern
  userId : ℕ
  userMembershipTier : Option String
  groupSize : Option ℤ
  isEarlyBird : Bool
deriving DecidableEq, Repr

/-- The distinct responses of `bookingController.createBooking`, one per
return site: 400 on validation errors, 404 when the court is missing, 400
for an inactive court, duration bounds, availability and recurring problems,
409 with the conflict list, and 201 on success. `diverged` marks the
recurring expansion never exiting its loop (the request never completes). -/
inductive CreateOutcome where
  | invalid
  | courtNotFound
  | courtNotActive
  | durationTooShort
  | durationTooLong
  | notAvailable (reason : Option String)
  | conflict (conflicts : List Booking)
  | limitReached
  | recurringNotAllowed
  | invalidRecurringPattern
  | created (b : Booking)
  | createdRecurring (parent : Booking) (children : List Booking)
  | diverged
deriving DecidableEq, Repr

/-- `bookingController.createBooking`. `courtDoc` is the populated result of
`Court.findById` together with `venue.settings.requiresApproval`; `stored`
is the booking collection; `newId` the id the database assigns to a new
document; `fuel` bounds the recurring expansion loop as in
`generateRecurringBookings`. Returns the response and the collection after
the request. -/
def createBooking (req : CreateRequest) (courtDoc : Option (Court × Bool))
    (stored : List Booking) (newId : ℕ) (fuel : ℕ) :
    CreateOutcome × List Booking :=
  if !req.validationOk then (CreateOutcome.invalid, stored) else
  match courtDoc with
  | none => (CreateOutcome.courtNotFound, stored)
  | some (court, venueRequiresApproval) =>
    if court.status != CourtStatus.active then
      (CreateOutcome.courtNotActive, stored)
    else
      let duration : ℚ := ((req.endTime - req.startTime : ℤ) : ℚ) / (msPerMinute : ℚ)
      if duration < (court.bookingSettings.minBookingDuration : ℚ) then
        (CreateOutcome.durationTooShort, stored)
      else if (court.bookingSettings.maxBookingDuration : ℚ) < duration then
        (CreateOutcome.durationTooLong, stored)
      else
        let availability := isAvailableForSlot court req.startTime req.endTime
        if !availability.available then
          (CreateOutcome.notAvailable availability.reason, stored)
        else
          let conflicts := checkConflicts stored req.court req.startTime req.endTime none
          if conflicts.length != 0 then (CreateOutcome.conflict conflicts, stored)
          else
            let userActiveBookings := (stored.filter fun b =>
              b.user == req.userId && b.court == req.court &&
                (b.status == BookingStatus.confirmed ||
                 b.status == BookingStatus.pendingConfirmation)).length
            if court.bookingSettings.maxConcurrentBookingsPerUser ≤ userActiveBookings then
              (CreateOutcome.limitReached, stored)
            else
              let basePrice := calculatePrice court req.startTime req.endTime
                { membershipTier := req.userMembershipTier
                  groupSize := some (match req.groupSize with
                    | some g => if g == 0 then 1 else g
                    | none => 1)
                  isEarlyBird := req.isEarlyBird }
              let subtotal := basePrice - 0
              let tax := subtotal * 5 / 100
              let totalAmount := subtotal + tax + 0
              let requiresApproval :=
                court.bookingSettings.requiresApproval || venueRequiresApproval
              let booking := preSaveDuration
                { id := newId, user := req.userId, court := req.court,
                  startTime := req.startTime, endTime := req.endTime,
                  duration := 0,
                  status := if requiresApproval then
                      BookingStatus.pendingConfirmation
                    else BookingStatus.confirmed,
                  pricingTotal := totalAmount, checkInTime := none,
                  checkInVerifiedBy := none }
                true true
              match req.bookingType, req.recurringPattern with
              | BookingType.recurring, some pat =>
                if !court.bookingSettings.allowRecurringBookings then
                  (CreateOutcome.recurringNotAllowed, stored)
                else if pat.endDate == none &&
                    (pat.occurrences == none || pat.occurrences == some 0) then
                  (CreateOutcome.invalidRecurringPattern, stored)
                else
                  let stored1 := stored ++ [booking]
                  match generateRecurringBookings fuel booking pat req.court stored1 with
                  | none => (CreateOutcome.diverged, stored1)
                  | some children =>
                    (CreateOutcome.createdRecurring booking children,
                      stored1 ++ children)
              | _, _ => (CreateOutcome.created booking, stored ++ [booking])

/-- Fixture: booking settings with the schema defaults the claims exercise
(minimum 60 and maximum 180 minutes, user cap 3, no approval). -/
def defaultSettings : BookingSettings :=
  { minBookingDuration := 60, maxBookingDuration := 180,
    maxConcurrentBookingsPerUser := 3, allowRecurringBookings := true,
    requiresApproval := false }

/-- Fixture: an active court open 08:00-20:00 on every weekday, base rate
1000 per hour, no pricing or discount rules and no exceptions. -/
def openCourt : Court :=
  { baseHourlyRate := 1000, pricingRules := [], discountRules := [],
    operatingHours :=
      [0, 1, 2, 3, 4, 5, 6].map fun d =>
        { dayOfWeek := d, openTime := 480, closeTime := 1200, isClosed := false },
    availabilityExceptions := [], bookingSettings := defaultSettings,
    status := CourtStatus.active }

/-- Fixture: a confirmed booking of court 1 over 10:00-12:00 of epoch
day 0. -/
def storedBooking : Booking :=
  { id := 5, user := 2, court := 1, startTime := 36000000,
    endTime := 43200000, duration := 120, status := BookingStatus.confirmed,
    pricingTotal := 2100, checkInTime := none, checkInVerifiedBy := none }

/-- Fixture: the "Peak Hours" scenario court — base rate 1000 per hour and
one active rule at 1500 per hour for the 17:00-21:00 window with
priority 10. -/
def peakCourt : Court :=
  { openCourt with
    pricingRules :=
      [{ name := "Peak Hours", baseRate := 1500, startDate := none,
         endDate := none, daysOfWeek := [], startTime := some 1020,
         endTime := some 1260, priority := 10, isActive := true }] }

/-- Fixture: a court whose only pricing input is an active 50% early-bird
discount on a base rate of 1000 per hour. -/
def earlyBirdCourt : Court :=
  { openCourt with
    discountRules :=
      [{ category := DiscountCategory.earlyBird,
         discountType := DiscountValueType.percentage, value := 50,
         minGroupSize := none, membershipTier := none, isActive := true }] }

/-- Fixture: a well-formed create request for court 1 over 11:00-13:00 of
epoch day 0 (120 minutes), overlapping `storedBooking`. -/
def overlappingRequest : CreateRequest :=
  { validationOk := true, court := 1, startTime := 39600000,
    endTime := 46800000, bookingType := BookingType.single,
    recurringPattern := none, userId := 9, userMembershipTier := none,
    groupSize := none, isEarlyBird := false }

/-- Fixture: a create request for court 1 over 10:10-10:40 of epoch day 0 —
only 30 minutes long, yet overlapping `storedBooking`. -/
def shortOverlappingRequest : CreateRequest :=
  { overlappingRequest with startTime := 36600000, endTime := 38400000 }

/-- Fixture: a parent booking of court 1 over 00:00-01:00 of epoch day 0
used for recurring expansion. -/
def recurringParent : Booking :=
  { id := 1, user := 2, court := 1, startTime := 0, endTime := 3600000,
    duration := 60, status := BookingStatus.confirmed, pricingTotal := 2100,
    checkInTime := none, checkInVerifiedBy := none }

/-- Fixture: a daily pattern explicitly requesting 53 occurrences, with no
end date and no day-of-week filter. -/
def fiftyThreePattern : RecurringPattern :=
  { frequency := Frequency.daily, interval := some 1, daysOfWeek := [],
    endDate := none, occurrences := some 53 }

/-- Fixture: a weekly pattern whose day-of-week filter [0] (Sunday) can
never match: starting from the epoch (a Thursday) every advanced date is
again a Thursday, and the pattern has no end date. -/
def neverMatchingWeekly : RecurringPattern :=
  { frequency := Frequency.weekly, interval := some 1, daysOfWeek := [0],
    endDate := none, occurrences := some 1 }

/-- Fixture: a daily pattern whose end date (the epoch) precedes every
generated occurrence, so the expansion stops at once with no children. -/
def endedPattern : RecurringPattern :=
  { frequency := Frequency.daily, interval := some 1, daysOfWeek := [],
    endDate := some 0, occurrences := some 5 }

/-- Fixture: a confirmed booking of user 7 starting at the epoch, for the
check-in claims. -/
def confirmedAtEpoch : Booking :=
  { id := 1, user := 7, court := 1, startTime := 0, endTime := 3600000,
    duration := 60, status := BookingStatus.confirmed, pricingTotal := 2100,
    checkInTime := none, checkInVerifiedBy := none }

/-- Fixture: a confirmed booking of court 1 over 10:00-11:00 of epoch
day 0, for the slot-enumeration scenario. -/
def bookingTenToEleven : Booking :=
  { id := 6, user := 2, court := 1, startTime := 36000000,
    endTime := 39600000, duration := 60, status := BookingStatus.confirmed,
    pricingTotal := 1000, checkInTime := none, checkInVerifiedBy := none }

/-- Fixture: a booking lasting one and a half minutes (90000 ms). -/
def halfMinuteBooking : Booking :=
  { id := 3, user := 2, court := 1, startTime := 0, endTime := 90000,
    duration := 0, status := BookingStatus.confirmed, pricingTotal := 0,
    checkInTime := none, checkInVerifiedBy := none }

/-- For well-formed intervals the four query branches are exactly the single
strict-overlap test of half-open intervals. -/
theorem conflictBranches_iff (s e : ℤ) (b : Booking) (hreq : s < e)
    (hb : b.startTime < b.endTime) :
    conflictBranches s e b = true ↔ (s < b.endTime ∧ b.startTime < e) := by
  unfold conflictBranches
  constructor
  · intro h
    simp only [Bool.or_eq_true, Bool.and_eq_true, decide_eq_true_eq] at h
    rcases h with ((⟨h1, h2⟩ | ⟨h1, h2⟩) | ⟨h1, h2⟩) | ⟨h1, h2⟩ <;> omega
  · intro ⟨h1, h2⟩
    simp only [Bool.or_eq_true, Bool.and_eq_true, decide_eq_true_eq]
    omega

/-- C1: `checkConflicts` returns exactly the stored bookings of the court,
other than the excluded one, in an occupying status, whose interval strictly
overlaps the request under the inclusive-exclusive convention
`s < e2 AND s2 < e`; in particular intervals that merely touch at a boundary
are never reported. -/
theorem checkConflicts_mem_iff (stored : List Booking) (courtId : ℕ)
    (s e : ℤ) (excludeBookingId : Option ℕ) (b : Booking) (hreq : s < e)
    (hb : b.startTime < b.endTime) :
    b ∈ checkConflicts stored courtId s e excludeBookingId ↔
      b ∈ stored ∧ b.court = courtId ∧ occupying b.status = true ∧
        (∀ i, excludeBookingId = some i → b.id ≠ i) ∧
        s < b.endTime ∧ b.startTime < e := by
  unfold checkConflicts
  rw [List.mem_filter]
  simp only [Bool.and_eq_true, beq_iff_eq]
  constructor
  · intro ⟨hmem, ⟨⟨hcourt, hocc⟩, hbr⟩, hexc⟩
    refine ⟨hmem, hcourt, hocc, ?_, ?_⟩
    · intro i hi
      subst hi
      simpa using hexc
    · exact (conflictBranches_iff s e b hreq hb).mp hbr
  · intro ⟨hmem, hcourt, hocc, hexc, hov⟩
    refine ⟨hmem, ⟨⟨hcourt, hocc⟩, (conflictBranches_iff s e b hreq hb).mpr hov⟩, ?_⟩
    match excludeBookingId with
    | none => rfl
    | some i => simpa using hexc i rfl

/-- Concrete instantiation of `checkConflicts_mem_iff`: a confirmed stored
booking on court 1 over [10:00, 12:00) of epoch day 0, queried with
[11:00, 13:00), is reported; the hypotheses hold at this input. -/
theorem checkConflicts_mem_iff_witness :
    {  id := 5, user := 2, court := 1, startTime := 36000000,
       endTime := 43200000, duration := 120, status := BookingStatus.confirmed,
       pricingTotal := 0, checkInTime := none,
       checkInVerifiedBy := none : Booking } ∈
      checkConflicts
        [{ id := 5, user := 2, court := 1, startTime := 36000000,
           endTime := 43200000, duration := 120,
           status := BookingStatus.confirmed, pricingTotal := 0,
           checkInTime := none, checkInVerifiedBy := none }]
        1 39600000 46800000 none :=
  (checkConflicts_mem_iff _ 1 39600000 46800000 none _ (by decide)
    (by decide)).mpr
    ⟨by decide, by decide, by decide, by intro i h; exact Option.noConfusion h,
      by decide, by decide⟩

/-- Division by milliseconds-per-hour against a rational threshold is the
corresponding comparison of milliseconds. -/
theorem hours_le_iff (d : ℤ) (k : ℚ) :
    k ≤ ((d : ℚ) / (msPerHour : ℚ)) ↔ k * (msPerHour : ℚ) ≤ (d : ℚ) := by
  rw [le_div_iff]
  norm_num [msPerHour]

set_option maxRecDepth 20000 in
/-- C3: the cancellation refund is a pure function of (now, startTime,
totalAmount); the percentage tiers are 100 / 75 / 50 / 25 / 0 at 24, 12, 6
and 2 hours before start, the refund amount is totalAmount x percentage /
100 and the fee is the remainder; for a total of 2100, starting 48 hours
out refunds 2100, 18 hours out refunds 1575, 1 hour out refunds 0. -/
theorem calculateCancellationRefund_spec (now startTime : ℤ)
    (totalAmount : ℚ) :
    ((calculateCancellationRefund now startTime totalAmount).refundAmount =
        totalAmount *
          (calculateCancellationRefund now startTime totalAmount).refundPercentage / 100) ∧
    ((calculateCancellationRefund now startTime totalAmount).cancellationFee =
        totalAmount -
          (calculateCancellationRefund now startTime totalAmount).refundAmount) ∧
    (24 * msPerHour ≤ startTime - now →
      (calculateCancellationRefund now startTime totalAmount).refundPercentage = 100) ∧
    (12 * msPerHour ≤ startTime - now → startTime - now < 24 * msPerHour →
      (calculateCancellationRefund now startTime totalAmount).refundPercentage = 75) ∧
    (6 * msPerHour ≤ startTime - now → startTime - now < 12 * msPerHour →
      (calculateCancellationRefund now startTime totalAmount).refundPercentage = 50) ∧
    (2 * msPerHour ≤ startTime - now → startTime - now < 6 * msPerHour →
      (calculateCancellationRefund now startTime totalAmount).refundPercentage = 25) ∧
    (startTime - now < 2 * msPerHour →
      (calculateCancellationRefund now startTime totalAmount).refundPercentage = 0) ∧
    (calculateCancellationRefund 0 (48 * msPerHour) 2100).refundAmount = 2100 ∧
    (calculateCancellationRefund 0 (18 * msPerHour) 2100).refundAmount = 1575 ∧
    (calculateCancellationRefund 0 (1 * msPerHour) 2100).refundAmount = 0 := by
  have hm : msPerHour = 3600000 := rfl
  have hcast : ∀ c : ℤ, c ≤ startTime - now ↔ (c : ℚ) ≤ ((startTime - now : ℤ) : ℚ) := by
    intro c
    exact_mod_cast Iff.rfl
  have htier : ∀ k : ℚ, ∀ c : ℤ, (k * (msPerHour : ℚ) = (c : ℚ)) →
      ((k ≤ ((startTime - now : ℤ) : ℚ) / (msPerHour : ℚ)) ↔ c ≤ startTime - now) := by
    intro k c hk
    rw [hours_le_iff, hk, hcast]
  refine ⟨?_, ?_, ?_, ?_, ?_, ?_, ?_, ?_, ?_, ?_⟩
  · simp only [calculateCancellationRefund]
  · simp only [calculateCancellationRefund]
  · intro h
    simp only [calculateCancellationRefund]
    rw [if_pos ((htier 24 (24 * msPerHour) (by norm_num [msPerHour])).mpr h)]
  · intro h1 h2
    simp only [calculateCancellationRefund]
    rw [if_neg, if_pos ((htier 12 (12 * msPerHour) (by norm_num [msPerHour])).mpr h1)]
    rw [htier 24 (24 * msPerHour) (by norm_num [msPerHour])]
    omega
  · intro h1 h2
    simp only [calculateCancellationRefund]
    rw [if_neg, if_neg, if_pos ((htier 6 (6 * msPerHour) (by norm_num [msPerHour])).mpr h1)]
    · rw [htier 12 (12 * msPerHour) (by norm_num [msPerHour])]
      omega
    · rw [htier 24 (24 * msPerHour) (by norm_num [msPerHour])]
      omega
  · intro h1 h2
    simp only [calculateCancellationRefund]
    rw [if_neg, if_neg, if_neg,
      if_pos ((htier 2 (2 * msPerHour) (by norm_num [msPerHour])).mpr h1)]
    · rw [htier 6 (6 * msPerHour) (by norm_num [msPerHour])]
      omega
    · rw [htier 12 (12 * msPerHour) (by norm_num [msPerHour])]
      omega
    · rw [htier 24 (24 * msPerHour) (by norm_num [msPerHour])]
      omega
  · intro h
    simp only [calculateCancellationRefund]
    rw [if_neg, if_neg, if_neg, if_neg]
    · rw [htier 2 (2 * msPerHour) (by norm_num [msPerHour])]
      omega
    · rw [htier 6 (6 * msPerHour) (by norm_num [msPerHour])]
      omega
    · rw [htier 12 (12 * msPerHour) (by norm_num [msPerHour])]
      omega
    · rw [htier 24 (24 * msPerHour) (by norm_num [msPerHour])]
      omega
  · with_unfolding_all decide
  · with_unfolding_all decide
  · with_unfolding_all decide

/-- Concrete instantiation of `calculateCancellationRefund_spec`: with the
clock at 0 and start 48 hours later, the 100% tier applies. -/
theorem calculateCancellationRefund_spec_witness :
    (calculateCancellationRefund 0 (48 * msPerHour) 2100).refundPercentage = 100 :=
  (calculateCancellationRefund_spec 0 (48 * msPerHour) 2100).2.2.1
    (by norm_num [msPerHour])

/-- C9 (amended): whenever a time field was modified, the pre-save hook sets
`duration` to `Math.round` of the millisecond difference divided by 60000 —
which equals the exact difference in minutes whenever that difference is a
whole number of minutes — and the hook changes no time field. -/
theorem preSaveDuration_spec (b : Booking) (modifiedStart modifiedEnd : Bool)
    (h : (modifiedStart || modifiedEnd) = true) :
    (preSaveDuration b modifiedStart modifiedEnd).duration =
      jsRound (((b.endTime - b.startTime : ℤ) : ℚ) / (msPerMinute : ℚ)) ∧
    (∀ k : ℤ, b.endTime - b.startTime = k * msPerMinute →
      (preSaveDuration b modifiedStart modifiedEnd).duration = k) ∧
    (preSaveDuration b modifiedStart modifiedEnd).startTime = b.startTime ∧
    (preSaveDuration b modifiedStart modifiedEnd).endTime = b.endTime := by
  unfold preSaveDuration
  rw [if_pos h]
  refine ⟨rfl, ?_, rfl, rfl⟩
  intro k hk
  show jsRound (((b.endTime - b.startTime : ℤ) : ℚ) / (msPerMinute : ℚ)) = k
  rw [hk]
  unfold jsRound
  push_cast
  rw [mul_div_assoc, div_self (by norm_num [msPerMinute]), mul_one,
    Int.floor_int_add]
  norm_num

/-- Concrete instantiation of `preSaveDuration_spec`: a 10:00-12:00 booking
gets duration 120 minutes on save. -/
theorem preSaveDuration_spec_witness :
    (preSaveDuration storedBooking true true).duration = 120 :=
  (preSaveDuration_spec storedBooking true true (by decide)).2.1 120 (by decide)

/-- C9 counterexample: for a booking lasting 90000 ms (one and a half
minutes) the stored duration is `Math.round(1.5) = 2`, which is not the
difference of the time fields expressed in minutes exactly. -/
theorem preSaveDuration_not_exact :
    (preSaveDuration halfMinuteBooking true false).duration = 2 ∧
    ((preSaveDuration halfMinuteBooking true false).duration : ℚ) *
        (msPerMinute : ℚ) ≠
      ((halfMinuteBooking.endTime - halfMinuteBooking.startTime : ℤ) : ℚ) := by
  constructor
  · with_unfolding_all decide
  · with_unfolding_all decide

/-- The check-in guard `(startTime - now) / 60000 > 15` holds exactly when
the start is more than 900000 ms away. -/
theorem minutes15_lt_iff (d : ℤ) :
    ((15 : ℚ) < (d : ℚ) / (msPerMinute : ℚ)) ↔ 900000 < d := by
  have hm : ((msPerMinute : ℤ) : ℚ) = 60000 := by norm_num [msPerMinute]
  rw [hm, lt_div_iff (by norm_num)]
  constructor
  · intro h
    exact_mod_cast (by linarith : (900000 : ℚ) < (d : ℚ))
  · intro h
    have : (900000 : ℚ) < (d : ℚ) := by exact_mod_cast h
    linarith

/-- C8 (amended): check-in on an existing booking requires authorization,
status confirmed, and a current time no earlier than 15 minutes before the
start time — with no upper bound, so a check-in after the start time also
succeeds; on success the status becomes in-progress and the check-in time
and verifier are recorded on that booking, and on every failure the
collection is unchanged. -/
theorem checkIn_spec (stored : List Booking) (bookingId actorId : ℕ)
    (role : Role) (now : ℤ) :
    (stored.find? (fun b => b.id == bookingId) = none →
      checkIn stored bookingId actorId role now = (CheckInOutcome.notFound, stored)) ∧
    (∀ b, stored.find? (fun b => b.id == bookingId) = some b →
      (¬(b.user = actorId ∨ role = Role.manager ∨ role = Role.admin) →
        checkIn stored bookingId actorId role now = (CheckInOutcome.notAuthorized, stored)) ∧
      ((b.user = actorId ∨ role = Role.manager ∨ role = Role.admin) →
        (b.status ≠ BookingStatus.confirmed →
          checkIn stored bookingId actorId role now = (CheckInOutcome.notConfirmed, stored)) ∧
        (b.status = BookingStatus.confirmed → 900000 < b.startTime - now →
          checkIn stored bookingId actorId role now = (CheckInOutcome.tooEarly, stored)) ∧
        (b.status = BookingStatus.confirmed → b.startTime - now ≤ 900000 →
          checkIn stored bookingId actorId role now =
            (CheckInOutcome.success,
              stored.map fun x =>
                if x.id == bookingId then applyCheckIn x now actorId else x)))) := by
  constructor
  · intro hfind
    unfold checkIn
    rw [hfind]
  · intro b hfind
    constructor
    · intro hna
      push_neg at hna
      obtain ⟨h1, h2, h3⟩ := hna
      have e1 : (b.user == actorId) = false := by
        simpa [beq_eq_false_iff_ne] using h1
      have e2 : (role == Role.manager) = false := by
        simpa [beq_eq_false_iff_ne] using h2
      have e3 : (role == Role.admin) = false := by
        simpa [beq_eq_false_iff_ne] using h3
      simp [checkIn, hfind, e1, e2, e3]
    · intro hauth2
      have hcond : (b.user == actorId || (role == Role.manager || role == Role.admin)) = true := by
        simp only [Bool.or_eq_true, beq_iff_eq]
        tauto
      refine ⟨?_, ?_, ?_⟩
      · intro hst
        simp [checkIn, hfind, hcond, hst]
      · intro hst hearly
        have hp : (15 : ℚ) < ((b.startTime - now : ℤ) : ℚ) / (msPerMinute : ℚ) :=
          (minutes15_lt_iff (b.startTime - now)).mpr hearly
        simp [checkIn, hfind, hcond, hst]
        push_cast at hp
        exact hp
      · intro hst hlate
        have hp : ¬((15 : ℚ) < ((b.startTime - now : ℤ) : ℚ) / (msPerMinute : ℚ)) := by
          rw [minutes15_lt_iff (b.startTime - now)]
          omega
        simp [checkIn, hfind, hcond, hst]
        push_cast at hp
        exact not_lt.mp hp

/-- Concrete instantiation of `checkIn_spec`: checking in a confirmed
booking ten minutes before its start succeeds and records the check-in. -/
theorem checkIn_spec_witness :
    checkIn [confirmedAtEpoch] 1 7 Role.user (-600000) =
      (CheckInOutcome.success,
        [confirmedAtEpoch].map fun x =>
          if x.id == 1 then applyCheckIn x (-600000) 7 else x) :=
  (((checkIn_spec [confirmedAtEpoch] 1 7 Role.user (-600000)).2
      confirmedAtEpoch (by decide)).2 (Or.inl rfl)).2.2 rfl (by decide)

/-- C8 counterexample: the same check-in succeeds a full hour AFTER the
booking's start time — the current time is not within the 15-minute window
before start, yet the controller checks only the lower bound. -/
theorem checkIn_after_start :
    (checkIn [confirmedAtEpoch] 1 7 Role.user 3600000).1 = CheckInOutcome.success ∧
    confirmedAtEpoch.status = BookingStatus.confirmed ∧
    confirmedAtEpoch.startTime < 3600000 := by
  refine ⟨?_, by decide, by decide⟩
  with_unfolding_all decide

/-- C5: `isAvailableForSlot` checks, in order: court status active; an
operating-hours entry for the start's weekday present and not closed; the
start's clock time within [open, close); then a calendar-date exception
with availability override false. The first failing check fixes the
unavailable result and reason, only the start time is ever bound-checked
(the result does not depend on the end time at all), and when every check
passes the result is available. -/
theorem isAvailableForSlot_spec (c : Court) (s e : ℤ) :
    (∀ e2, isAvailableForSlot c s e = isAvailableForSlot c s e2) ∧
    (c.status ≠ CourtStatus.active →
      isAvailableForSlot c s e =
        { available := false, reason := some "Court is not active" }) ∧
    (c.status = CourtStatus.active →
      c.operatingHours.find? (fun oh => oh.dayOfWeek == weekday s) = none →
      isAvailableForSlot c s e =
        { available := false, reason := some "Court is closed on this day" }) ∧
    (∀ oh, c.status = CourtStatus.active →
      c.operatingHours.find? (fun oh => oh.dayOfWeek == weekday s) = some oh →
      oh.isClosed = true →
      isAvailableForSlot c s e =
        { available := false, reason := some "Court is closed on this day" }) ∧
    (∀ oh, c.status = CourtStatus.active →
      c.operatingHours.find? (fun oh => oh.dayOfWeek == weekday s) = some oh →
      oh.isClosed = false →
      (minuteOfDay s < oh.openTime ∨ oh.closeTime ≤ minuteOfDay s) →
      isAvailableForSlot c s e =
        { available := false, reason := some "Outside operating hours" }) ∧
    (∀ oh exc, c.status = CourtStatus.active →
      c.operatingHours.find? (fun oh => oh.dayOfWeek == weekday s) = some oh →
      oh.isClosed = false →
      oh.openTime ≤ minuteOfDay s → minuteOfDay s < oh.closeTime →
      c.availabilityExceptions.find?
          (fun exc => dayNumber exc.date == dayNumber s) = some exc →
      exc.isAvailable = false →
      isAvailableForSlot c s e =
        { available := false,
          reason := some ((exc.reason).getD "Court is unavailable on this date") }) ∧
    (∀ oh, c.status = CourtStatus.active →
      c.operatingHours.find? (fun oh => oh.dayOfWeek == weekday s) = some oh →
      oh.isClosed = false →
      oh.openTime ≤ minuteOfDay s → minuteOfDay s < oh.closeTime →
      (∀ exc, c.availabilityExceptions.find?
          (fun exc => dayNumber exc.date == dayNumber s) = some exc →
        exc.isAvailable = true) →
      isAvailableForSlot c s e = { available := true, reason := none }) := by
  refine ⟨?_, ?_, ?_, ?_, ?_, ?_, ?_⟩
  · intro e2
    unfold isAvailableForSlot
    rfl
  · intro hs
    have hs2 : (c.status != CourtStatus.active) = true := by
      simpa [bne_iff_ne] using hs
    simp [isAvailableForSlot, hs2]
  · intro hs hfind
    simp [isAvailableForSlot, hs, hfind]
  · intro oh hs hfind hclosed
    simp [isAvailableForSlot, hs, hfind, hclosed]
  · intro oh hs hfind hopen hout
    have hb : (decide (minuteOfDay s < oh.openTime) ||
        decide (oh.closeTime ≤ minuteOfDay s)) = true := by
      rcases hout with h | h <;> simp [h]
    simp [isAvailableForSlot, hs, hfind, hopen, hb]
  · intro oh exc hs hfind hopen h1 h2 hexc hna
    have hb2 : (decide (minuteOfDay s < oh.openTime) ||
        decide (oh.closeTime ≤ minuteOfDay s)) = false := by
      simp only [Bool.or_eq_false_iff, decide_eq_false_iff_not]
      exact ⟨not_lt.mpr h1, not_le.mpr h2⟩
    simp [isAvailableForSlot, hs, hfind, hopen, hb2, hexc, hna]
  · intro oh hs hfind hopen h1 h2 hexc
    have hb2 : (decide (minuteOfDay s < oh.openTime) ||
        decide (oh.closeTime ≤ minuteOfDay s)) = false := by
      simp only [Bool.or_eq_false_iff, decide_eq_false_iff_not]
      exact ⟨not_lt.mpr h1, not_le.mpr h2⟩
    cases hfe : c.availabilityExceptions.find?
        (fun exc => dayNumber exc.date == dayNumber s) with
    | none => simp [isAvailableForSlot, hs, hfind, hopen, hb2, hfe]
    | some exc =>
      simp [isAvailableForSlot, hs, hfind, hopen, hb2, hfe, hexc exc hfe]

/-- Concrete instantiation of `isAvailableForSlot_spec`: an active court
open 08:00-20:00, queried at 10:00-12:00 of epoch day 0, is available. -/
theorem isAvailableForSlot_spec_witness :
    isAvailableForSlot openCourt 36000000 43200000 =
      { available := true, reason := none } :=
  (isAvailableForSlot_spec openCourt 36000000 43200000).2.2.2.2.2.2
    { dayOfWeek := 4, openTime := 480, closeTime := 1200, isClosed := false }
    (by decide) (by decide) (by decide) (by decide) (by decide)
    (by intro exc h; exact Option.noConfusion h)

/-- Sorting an empty rule list yields the empty list. -/
theorem mergeSort_nil_rules : (([] : List PricingRule).mergeSort byPriorityDesc) = [] :=
  List.perm_nil.mp (List.mergeSort_perm [] byPriorityDesc)

/-- Sorting a one-rule list yields that list. -/
theorem mergeSort_singleton_rules (r : PricingRule) :
    ([r].mergeSort byPriorityDesc) = [r] :=
  List.perm_singleton.mp (List.mergeSort_perm [r] byPriorityDesc)

/-- The head of the descending-priority sort of a rule list is a member of
maximal priority. -/
theorem head_mergeSort_max (l : List PricingRule) (r : PricingRule)
    (h : (l.mergeSort byPriorityDesc).head? = some r) :
    r ∈ l ∧ ∀ x ∈ l, x.priority ≤ r.priority := by
  have hperm := List.mergeSort_perm l byPriorityDesc
  have hsorted := @List.sorted_mergeSort PricingRule byPriorityDesc
    (fun a b c hab hbc => by
      simp only [byPriorityDesc, decide_eq_true_eq] at hab hbc ⊢
      omega)
    (fun a b => by
      simp only [byPriorityDesc, Bool.or_eq_true, decide_eq_true_eq]
      omega)
    l
  cases hms : l.mergeSort byPriorityDesc with
  | nil => rw [hms] at h; exact Option.noConfusion h
  | cons hd tl =>
    rw [hms] at h hperm hsorted
    have hhd : hd = r := by
      simpa using h
    subst hhd
    constructor
    · exact hperm.mem_iff.mp (List.mem_cons_self hd tl)
    · intro x hx
      have hx2 : x ∈ hd :: tl := hperm.mem_iff.mpr hx
      rcases List.mem_cons.mp hx2 with h1 | h1
      · rw [h1]
      · have := (List.pairwise_cons.mp hsorted).1 x h1
        simpa [byPriorityDesc] using this

/-- C4 (amended): `calculatePrice` charges duration-in-hours times the rate
of the highest-priority applicable pricing rule (active; date range,
day-of-week set and time window, each when present, containing the start
time), falling back to the base hourly rate when no rule matches — and then
applies the matching discount rules; when the options trigger no discount
the price is exactly the duration times the selected rate (floored at
zero), and the peak-pricing scenario prices 18:00-20:00 at 3000. -/
theorem calculatePrice_spec (c : Court) (s e : ℤ) (o : PriceOptions)
    (hnd : priceOptionsTruthy o = false ∨
      c.discountRules.filter (fun d => discountMatches o d) = []) :
    (∀ r, ((c.pricingRules.filter fun r => ruleApplies r s).mergeSort
        byPriorityDesc).head? = some r →
      r ∈ c.pricingRules ∧ ruleApplies r s = true ∧
        (∀ x ∈ c.pricingRules, ruleApplies x s = true →
          x.priority ≤ r.priority) ∧
        calculatePrice c s e o =
          max 0 (r.baseRate * (((e - s : ℤ) : ℚ) / (msPerHour : ℚ)))) ∧
    ((c.pricingRules.filter fun r => ruleApplies r s) = [] →
      calculatePrice c s e o =
        max 0 (c.baseHourlyRate * (((e - s : ℤ) : ℚ) / (msPerHour : ℚ)))) ∧
    calculatePrice peakCourt 64800000 72000000
      { membershipTier := none, groupSize := none, isEarlyBird := false } = 3000 := by
  have hdisc : ∀ tp : ℚ,
      (if priceOptionsTruthy o then
        (c.discountRules.filter fun d => discountMatches o d).foldl
          applyDiscount tp
      else tp) = tp := by
    intro tp
    rcases hnd with h | h
    · rw [if_neg (by rw [h]; exact Bool.false_ne_true)]
    · rw [h]
      simp
  refine ⟨?_, ?_, ?_⟩
  · intro r hr
    obtain ⟨hmem, hmax⟩ :=
      head_mergeSort_max (c.pricingRules.filter fun r => ruleApplies r s) r hr
    have happ : ruleApplies r s = true := (List.mem_filter.mp hmem).2
    refine ⟨(List.mem_filter.mp hmem).1, happ, ?_, ?_⟩
    · intro x hx hxa
      exact hmax x (List.mem_filter.mpr ⟨hx, hxa⟩)
    · simp only [calculatePrice, hr]
      rw [hdisc]
  · intro hempty
    simp only [calculatePrice, hempty, mergeSort_nil_rules, List.head?_nil]
    rw [hdisc]
  · have hrule : peakCourt.pricingRules =
        [{ name := "Peak Hours", baseRate := 1500, startDate := none,
           endDate := none, daysOfWeek := [], startTime := some 1020,
           endTime := some 1260, priority := 10, isActive := true }] := rfl
    have hfilter : (List.filter (fun r => ruleApplies r 64800000)
        [{ name := "Peak Hours", baseRate := 1500, startDate := none,
           endDate := none, daysOfWeek := [], startTime := some 1020,
           endTime := some 1260, priority := 10, isActive := true }]) =
        [{ name := "Peak Hours", baseRate := 1500, startDate := none,
           endDate := none, daysOfWeek := [], startTime := some 1020,
           endTime := some 1260, priority := 10, isActive := true }] := by decide
    simp only [calculatePrice, hrule, hfilter, mergeSort_singleton_rules,
      List.head?_cons]
    norm_num [priceOptionsTruthy, msPerHour]

/-- Concrete instantiation of `calculatePrice_spec`: a court with no rules
and no discounts prices 10:00-12:00 at the base-rate fallback. -/
theorem calculatePrice_spec_witness :
    calculatePrice openCourt 36000000 43200000
      { membershipTier := none, groupSize := none, isEarlyBird := false } =
      max 0 (openCourt.baseHourlyRate *
        (((43200000 - 36000000 : ℤ) : ℚ) / (msPerHour : ℚ))) :=
  (calculatePrice_spec openCourt 36000000 43200000
    { membershipTier := none, groupSize := none, isEarlyBird := false }
    (Or.inr rfl)).2.1 rfl

/-- C4 counterexample: with an active 50% early-bird discount and matching
options, `calculatePrice` returns 500 for one hour at base rate 1000 — not
duration times the selected hourly rate (which would be 1000). -/
theorem calculatePrice_discount_counterexample :
    earlyBirdCourt.pricingRules = [] ∧
    earlyBirdCourt.baseHourlyRate = 1000 ∧
    (((3600000 - 0 : ℤ) : ℚ) / (msPerHour : ℚ)) * earlyBirdCourt.baseHourlyRate = 1000 ∧
    calculatePrice earlyBirdCourt 0 3600000
      { membershipTier := none, groupSize := none, isEarlyBird := true } = 500 := by
  refine ⟨rfl, rfl, ?_, ?_⟩
  · show (((3600000 - 0 : ℤ) : ℚ) / (msPerHour : ℚ)) * 1000 = 1000
    norm_num [msPerHour]
  · simp only [calculatePrice]
    rw [show (List.filter (fun r => ruleApplies r 0) earlyBirdCourt.pricingRules) =
      [] from rfl, mergeSort_nil_rules]
    simp only [List.head?_nil]
    norm_num [priceOptionsTruthy, discountMatches, applyDiscount, msPerHour,
      earlyBirdCourt, openCourt, defaultSettings]

/-- A stored occupying booking of the right court whose interval passes the
four query branches is reported by `checkConflicts`. -/
theorem mem_checkConflicts (stored : List Booking) (courtId : ℕ) (s e : ℤ)
    (b : Booking) (hmem : b ∈ stored) (hc : b.court = courtId)
    (hocc : occupying b.status = true) (hbr : conflictBranches s e b = true) :
    b ∈ checkConflicts stored courtId s e none :=
  List.mem_filter.mpr ⟨hmem, by simp [hc, hocc, hbr]⟩

/-- C2 (amended): a create request that passes validation, targets an active
court, satisfies the duration bounds and the availability check, and
overlaps a stored confirmed booking of the same court, is answered with the
Conflict outcome carrying the conflict list (the stored booking among it),
and the collection is returned unchanged — nothing is persisted and the
stored booking is untouched. -/
theorem createBooking_conflict (req : CreateRequest) (court : Court)
    (vra : Bool) (stored : List Booking) (newId fuel : ℕ) (b : Booking)
    (hval : req.validationOk = true)
    (hstatus : court.status = CourtStatus.active)
    (hdur1 : ¬(((req.endTime - req.startTime : ℤ) : ℚ) / (msPerMinute : ℚ) <
      (court.bookingSettings.minBookingDuration : ℚ)))
    (hdur2 : ¬((court.bookingSettings.maxBookingDuration : ℚ) <
      ((req.endTime - req.startTime : ℤ) : ℚ) / (msPerMinute : ℚ)))
    (havail : (isAvailableForSlot court req.startTime req.endTime).available = true)
    (hmem : b ∈ stored) (hc : b.court = req.court)
    (hconfirmed : b.status = BookingStatus.confirmed)
    (hreq : req.startTime < req.endTime) (hwf : b.startTime < b.endTime)
    (hov1 : req.startTime < b.endTime) (hov2 : b.startTime < req.endTime) :
    createBooking req (some (court, vra)) stored newId fuel =
      (CreateOutcome.conflict
        (checkConflicts stored req.court req.startTime req.endTime none),
        stored) ∧
    b ∈ checkConflicts stored req.court req.startTime req.endTime none := by
  have hconf : b ∈ checkConflicts stored req.court req.startTime req.endTime none :=
    mem_checkConflicts stored req.court req.startTime req.endTime b hmem hc
      (by simp [occupying, hconfirmed])
      ((conflictBranches_iff req.startTime req.endTime b hreq hwf).mpr
        ⟨hov1, hov2⟩)
  refine ⟨?_, hconf⟩
  have hbne : (court.status != CourtStatus.active) = false := by
    simp [hstatus]
  have havail2 : (!(isAvailableForSlot court req.startTime req.endTime).available) = false := by
    simp [havail]
  have hlen2 : ((checkConflicts stored req.court req.startTime req.endTime
      none).length != 0) = true := by
    have hne : checkConflicts stored req.court req.startTime req.endTime none ≠ [] :=
      List.ne_nil_of_mem hconf
    simpa [bne_iff_ne, List.length_eq_zero] using hne
  simp only [createBooking, hval, hbne, havail2, hlen2, Bool.not_true,
    Bool.false_eq_true, if_false, hdur1, hdur2, if_true]

/-- Concrete instantiation of `createBooking_conflict`: an 11:00-13:00
request against the stored confirmed 10:00-12:00 booking of court 1 is
rejected with the conflict list containing it. -/
theorem createBooking_conflict_witness :
    createBooking overlappingRequest (some (openCourt, false)) [storedBooking] 10 0 =
      (CreateOutcome.conflict
        (checkConflicts [storedBooking] overlappingRequest.court
          overlappingRequest.startTime overlappingRequest.endTime none),
        [storedBooking]) ∧
    storedBooking ∈ checkConflicts [storedBooking] overlappingRequest.court
      overlappingRequest.startTime overlappingRequest.endTime none :=
  createBooking_conflict overlappingRequest openCourt false [storedBooking]
    10 0 storedBooking (by decide) (by decide)
    (by norm_num [overlappingRequest, openCourt, defaultSettings, msPerMinute])
    (by norm_num [overlappingRequest, openCourt, defaultSettings, msPerMinute])
    (by decide) (by decide) (by decide) (by decide) (by decide) (by decide)
    (by decide) (by decide)

/-- C2 counterexample: a 10:10-10:40 request overlaps the stored confirmed
10:00-12:00 booking on the same court, yet is rejected by the duration
minimum (a validation-category 400), not by the Conflict category — the
claim's unconditional quantification over create requests fails. -/
theorem createBooking_short_counterexample :
    storedBooking.status = BookingStatus.confirmed ∧
    storedBooking.court = shortOverlappingRequest.court ∧
    shortOverlappingRequest.startTime < storedBooking.endTime ∧
    storedBooking.startTime < shortOverlappingRequest.endTime ∧
    createBooking shortOverlappingRequest (some (openCourt, false))
        [storedBooking] 10 0 =
      (CreateOutcome.durationTooShort, [storedBooking]) := by
  refine ⟨by decide, by decide, by decide, by decide, ?_⟩
  norm_num [createBooking, shortOverlappingRequest, overlappingRequest,
    openCourt, defaultSettings, msPerMinute]

/-- For a positive step and well-formed bookings, the three-branch slot
test is the single strict-overlap test. -/
theorem slotOverlapsBooking_iff (ss se : ℤ) (b : Booking) (hs : ss < se)
    (hb : b.startTime < b.endTime) :
    slotOverlapsBooking ss se b = true ↔ (b.startTime < se ∧ ss < b.endTime) := by
  unfold slotOverlapsBooking
  constructor
  · intro h
    simp only [Bool.or_eq_true, Bool.and_eq_true, decide_eq_true_eq] at h
    rcases h with (⟨h1, h2⟩ | ⟨h1, h2⟩) | ⟨h1, h2⟩ <;> omega
  · intro ⟨h1, h2⟩
    simp only [Bool.or_eq_true, Bool.and_eq_true, decide_eq_true_eq]
    omega

/-- Membership in the slot loop: with enough gas and a positive step, the
produced slots are exactly the grid slots whose end fits before close, each
carrying the booking-overlap flag. -/
theorem slotLoop_mem (dayBookings : List Booking) (i close : ℤ) (hi : 0 < i) :
    ∀ gas : ℕ, ∀ cur : ℤ, (close - cur).toNat < gas →
      ∀ sl : Slot, sl ∈ slotLoop dayBookings i close gas cur ↔
        ∃ k : ℕ, sl.startTime = cur + (k : ℤ) * i ∧
          sl.endTime = sl.startTime + i ∧ sl.endTime ≤ close ∧
          sl.available =
            !(dayBookings.any fun b =>
              slotOverlapsBooking sl.startTime sl.endTime b) := by
  intro gas
  induction gas with
  | zero =>
    intro cur hg sl
    omega
  | succ gas ih =>
    intro cur hg sl
    by_cases hc : cur < close
    · by_cases hfit : cur + i ≤ close
      · have hrec := ih (cur + i) (by omega) sl
        constructor
        · intro hmem
          simp only [slotLoop, if_pos hc, if_pos hfit, List.mem_cons] at hmem
          rcases hmem with heq | hmem
          · refine ⟨0, ?_, ?_, ?_, ?_⟩ <;> subst heq <;> simp [hfit]
          · obtain ⟨k, h1, h2, h3, h4⟩ := hrec.mp hmem
            refine ⟨k + 1, ?_, h2, h3, h4⟩
            rw [h1]
            push_cast
            ring
        · rintro ⟨k, h1, h2, h3, h4⟩
          simp only [slotLoop, if_pos hc, if_pos hfit, List.mem_cons]
          cases k with
          | zero =>
            left
            obtain ⟨s1, s2, s3⟩ := sl
            simp only [Nat.cast_zero, zero_mul, add_zero] at h1
            simp only at h1 h2 h4
            subst h1
            subst h2
            simp only [Slot.mk.injEq, true_and]
            simpa using h4
          | succ k2 =>
            right
            apply hrec.mpr
            refine ⟨k2, ?_, h2, h3, h4⟩
            rw [h1]
            push_cast
            ring
      · have hrec := ih (cur + i) (by omega) sl
        simp only [slotLoop, if_pos hc, if_neg hfit]
        rw [hrec]
        constructor
        · rintro ⟨k, h1, h2, h3, h4⟩
          exfalso
          have hk : (0 : ℤ) ≤ (k : ℤ) := Int.natCast_nonneg k
          have hki : 0 ≤ (k : ℤ) * i := mul_nonneg hk hi.le
          omega
        · rintro ⟨k, h1, h2, h3, h4⟩
          exfalso
          have hk : (0 : ℤ) ≤ (k : ℤ) := Int.natCast_nonneg k
          have hki : 0 ≤ (k : ℤ) * i := mul_nonneg hk hi.le
          omega
    · simp only [slotLoop, if_neg hc]
      constructor
      · intro h
        exact absurd h (List.not_mem_nil sl)
      · rintro ⟨k, h1, h2, h3, h4⟩
        exfalso
        have hk : (0 : ℤ) ≤ (k : ℤ) := Int.natCast_nonneg k
        have hki : 0 ≤ (k : ℤ) * i := mul_nonneg hk hi.le
        omega

/-- C6: `findAvailableSlots` returns the empty list when the day's
operating-hours entry is absent or closed; otherwise it returns exactly the
consecutive `[slotStart, slotStart + interval)` candidates from the open
time whose end does not exceed the close time (trailing partial slots are
dropped), each marked unavailable exactly when it strictly overlaps an
occupying booking of that court lying within that day; for a court open
08:00-20:00, interval 60, and one confirmed 10:00-11:00 booking, the twelve
slots are all available except the 10:00 one. -/
theorem findAvailableSlots_spec (c : Court) (stored : List Booking)
    (courtId : ℕ) (date interval : ℤ) (hi : 0 < interval)
    (hwf : ∀ b ∈ stored, b.startTime < b.endTime) :
    (c.operatingHours.find?
        (fun oh => oh.dayOfWeek == weekday (dayNumber date * msPerDay)) = none →
      findAvailableSlots c stored courtId date interval = []) ∧
    (∀ oh, c.operatingHours.find?
        (fun oh => oh.dayOfWeek == weekday (dayNumber date * msPerDay)) = some oh →
      oh.isClosed = true →
      findAvailableSlots c stored courtId date interval = []) ∧
    (∀ oh, c.operatingHours.find?
        (fun oh => oh.dayOfWeek == weekday (dayNumber date * msPerDay)) = some oh →
      oh.isClosed = false →
      ∀ sl, sl ∈ findAvailableSlots c stored courtId date interval ↔
        ∃ k : ℕ,
          sl.startTime = dayNumber date * msPerDay + oh.openTime * msPerMinute +
            (k : ℤ) * (interval * msPerMinute) ∧
          sl.endTime = sl.startTime + interval * msPerMinute ∧
          sl.endTime ≤ dayNumber date * msPerDay + oh.closeTime * msPerMinute ∧
          (sl.available = false ↔
            ∃ b ∈ stored, b.court = courtId ∧ occupying b.status = true ∧
              dayNumber date * msPerDay ≤ b.startTime ∧
              b.endTime ≤ dayNumber date * msPerDay + (msPerDay - 1) ∧
              b.startTime < sl.endTime ∧ sl.startTime < b.endTime)) ∧
    (findAvailableSlots openCourt [bookingTenToEleven] 1 0 60).map
        (fun sl => sl.available) =
      [true, true, false, true, true, true, true, true, true, true, true, true] := by
  have hims : (0 : ℤ) < interval * msPerMinute := by
    have hm : (0 : ℤ) < msPerMinute := by norm_num [msPerMinute]
    exact mul_pos hi hm
  refine ⟨?_, ?_, ?_, by decide⟩
  · intro hfind
    simp only [findAvailableSlots, hfind]
  · intro oh hfind hclosed
    simp only [findAvailableSlots, hfind, hclosed, if_true]
  · intro oh hfind hclosed sl
    have hresult : findAvailableSlots c stored courtId date interval =
        slotLoop (stored.filter fun b =>
            b.court == courtId && occupying b.status &&
              decide (dayNumber date * msPerDay ≤ b.startTime) &&
              decide (b.endTime ≤ dayNumber date * msPerDay + (msPerDay - 1)))
          (interval * msPerMinute)
          (dayNumber date * msPerDay + oh.closeTime * msPerMinute)
          ((dayNumber date * msPerDay + oh.closeTime * msPerMinute -
            (dayNumber date * msPerDay + oh.openTime * msPerMinute)).toNat + 1)
          (dayNumber date * msPerDay + oh.openTime * msPerMinute) := by
      simp only [findAvailableSlots, hfind, hclosed]
      rfl
    have hany : ∀ ss se : ℤ, ss < se →
        (((stored.filter fun b =>
            b.court == courtId && occupying b.status &&
              decide (dayNumber date * msPerDay ≤ b.startTime) &&
              decide (b.endTime ≤ dayNumber date * msPerDay + (msPerDay - 1))).any
          fun b => slotOverlapsBooking ss se b) = true ↔
          ∃ b ∈ stored, b.court = courtId ∧ occupying b.status = true ∧
            dayNumber date * msPerDay ≤ b.startTime ∧
            b.endTime ≤ dayNumber date * msPerDay + (msPerDay - 1) ∧
            b.startTime < se ∧ ss < b.endTime) := by
      intro ss se hs
      rw [List.any_eq_true]
      constructor
      · rintro ⟨b, hbmem, hp⟩
        obtain ⟨hbs, hcond⟩ := List.mem_filter.mp hbmem
        simp only [Bool.and_eq_true, beq_iff_eq, decide_eq_true_eq] at hcond
        obtain ⟨⟨⟨hc1, hc2⟩, hc3⟩, hc4⟩ := hcond
        have hov := (slotOverlapsBooking_iff _ _ b hs (hwf b hbs)).mp hp
        exact ⟨b, hbs, hc1, hc2, hc3, hc4, hov.1, hov.2⟩
      · rintro ⟨b, hbs, hc1, hc2, hc3, hc4, ho1, ho2⟩
        refine ⟨b, List.mem_filter.mpr ⟨hbs, ?_⟩, ?_⟩
        · simp only [Bool.and_eq_true, beq_iff_eq, decide_eq_true_eq]
          exact ⟨⟨⟨hc1, hc2⟩, hc3⟩, hc4⟩
        · exact (slotOverlapsBooking_iff _ _ b hs (hwf b hbs)).mpr ⟨ho1, ho2⟩
    rw [hresult]
    rw [slotLoop_mem _ (interval * msPerMinute) _ hims _ _ (by omega) sl]
    constructor
    · rintro ⟨k, h1, h2, h3, h4⟩
      refine ⟨k, h1, h2, h3, ?_⟩
      have hslot : sl.startTime < sl.endTime := by
        rw [h2]
        linarith
      rw [h4, Bool.not_eq_false']
      exact hany sl.startTime sl.endTime hslot
    · rintro ⟨k, h1, h2, h3, h4⟩
      refine ⟨k, h1, h2, h3, ?_⟩
      have hslot : sl.startTime < sl.endTime := by
        rw [h2]
        linarith
      have h5 : sl.available = false ↔
          ((stored.filter fun b =>
            b.court == courtId && occupying b.status &&
              decide (dayNumber date * msPerDay ≤ b.startTime) &&
              decide (b.endTime ≤ dayNumber date * msPerDay + (msPerDay - 1))).any
            fun b => slotOverlapsBooking sl.startTime sl.endTime b) = true :=
        h4.trans (hany sl.startTime sl.endTime hslot).symm
      cases hXv : ((stored.filter fun b =>
          b.court == courtId && occupying b.status &&
            decide (dayNumber date * msPerDay ≤ b.startTime) &&
            decide (b.endTime ≤ dayNumber date * msPerDay + (msPerDay - 1))).any
          fun b => slotOverlapsBooking sl.startTime sl.endTime b) with
      | true =>
        simp only [Bool.not_true]
        exact h5.mpr hXv
      | false =>
        simp only [Bool.not_false]
        cases havv : sl.available with
        | false => exact absurd (hXv ▸ h5.mp havv) Bool.false_ne_true
        | true => rfl

/-- Concrete instantiation of `findAvailableSlots_spec`: the slot grid of
the scenario court on epoch day 0. -/
theorem findAvailableSlots_spec_witness :
    (findAvailableSlots openCourt [bookingTenToEleven] 1 0 60).map
        (fun sl => sl.available) =
      [true, true, false, true, true, true, true, true, true, true, true, true] :=
  (findAvailableSlots_spec openCourt [bookingTenToEleven] 1 0 60 (by decide)
    (by decide)).2.2.2

/-- The expansion loop never returns more occurrences than
`maxOccurrences`: the count equals the accumulator length and the loop only
persists while the count is below the bound. -/
theorem genRecLoop_length (pat : RecurringPattern) (courtId : ℕ)
    (stored : List Booking) (parent : Booking) (durationMs : ℤ) :
    ∀ fuel : ℕ, ∀ cur : ℤ, ∀ count : ℕ, ∀ acc l : List Booking,
      acc.length = count → count ≤ maxOccurrences pat →
      genRecLoop pat courtId stored parent durationMs fuel cur count acc = some l →
      l.length ≤ maxOccurrences pat := by
  intro fuel
  induction fuel with
  | zero =>
    intro cur count acc l hlen hle h
    simp only [genRecLoop] at h
    by_cases hm : maxOccurrences pat ≤ count
    · rw [if_pos hm, Option.some.injEq] at h
      subst h
      omega
    · rw [if_neg hm] at h
      exact Option.noConfusion h
  | succ fuel ih =>
    intro cur count acc l hlen hle h
    by_cases hm : maxOccurrences pat ≤ count
    · simp only [genRecLoop, if_pos hm, Option.some.injEq] at h
      subst h
      omega
    · simp only [genRecLoop, if_neg hm] at h
      split at h
      · simp only [Option.some.injEq] at h
        subst h
        omega
      · split at h
        · exact ih _ count acc l hlen hle h
        · split at h
          · exact ih _ (count + 1) _ l (by simp [hlen]) (by omega) h
          · exact ih _ count acc l hlen hle h

/-- C7 (amended): the recurring expansion creates at most
`occurrences` child occurrences when the pattern gives a non-zero count —
with no 52 cap — and at most 52 only when the pattern gives no occurrence
count (or zero, which is falsy); whenever the loop exits, the result length
is bounded by `maxOccurrences` = `occurrences || 52`. -/
theorem generateRecurringBookings_capped (fuel : ℕ) (parent : Booking)
    (pat : RecurringPattern) (courtId : ℕ) (stored : List Booking)
    (l : List Booking)
    (h : generateRecurringBookings fuel parent pat courtId stored = some l) :
    l.length ≤ maxOccurrences pat ∧
    (pat.occurrences = none → l.length ≤ 52) := by
  have hb := genRecLoop_length pat courtId stored parent
    (parent.endTime - parent.startTime) fuel parent.startTime 0 [] l rfl
    (Nat.zero_le _) h
  refine ⟨hb, ?_⟩
  intro hocc
  have hmax : maxOccurrences pat = 52 := by
    simp [maxOccurrences, hocc]
  omega

/-- Concrete instantiation of `generateRecurringBookings_capped`: a pattern
whose end date precedes every occurrence expands to the empty list, within
the bound. -/
theorem generateRecurringBookings_capped_witness :
    ([] : List Booking).length ≤ maxOccurrences endedPattern ∧
    (endedPattern.occurrences = none → ([] : List Booking).length ≤ 52) :=
  generateRecurringBookings_capped 1 recurringParent endedPattern 1 [] []
    (by decide)

/-- C7 counterexample: a daily pattern requesting 53 occurrences (no end
date, no day-of-week filter, no stored bookings to conflict) produces 53
children — the occurrence count is not capped at 52. -/
theorem generateRecurringBookings_53 :
    (generateRecurringBookings 60 recurringParent fiftyThreePattern 1 []).map
      List.length = some 53 := by
  decide

/-- Any whole number of weeks after the epoch is again a Thursday (4). -/
theorem weekday_weeks (m : ℤ) : weekday (604800000 * m) = 4 := by
  unfold weekday dayNumber msPerDay
  rw [show (604800000 : ℤ) * m = 86400000 * (7 * m) from by ring,
    Int.mul_fdiv_cancel_left _ (by norm_num)]
  omega

/-- On the never-matching weekly pattern the expansion loop runs out of any
amount of fuel: every advanced date is a Thursday, the day-of-week filter
[Sunday] rejects it, and the `continue` neither counts nor stops. -/
theorem genRecLoop_neverMatching :
    ∀ fuel : ℕ, ∀ k : ℕ,
      genRecLoop neverMatchingWeekly 1 [] recurringParent 3600000 fuel
        (604800000 * (k : ℤ)) 0 [] = none := by
  intro fuel
  induction fuel with
  | zero =>
    intro k
    simp [genRecLoop, maxOccurrences, neverMatchingWeekly]
  | succ fuel ih =>
    intro k
    have hnext : advanceDate neverMatchingWeekly.frequency
        (patternInterval neverMatchingWeekly) (604800000 * (k : ℤ)) =
        604800000 * ((k + 1 : ℕ) : ℤ) := by
      simp only [advanceDate, neverMatchingWeekly, patternInterval]
      push_cast
      norm_num [msPerDay]
      ring
    have hwd : weekday (604800000 * ((k + 1 : ℕ) : ℤ)) = 4 :=
      weekday_weeks ((k + 1 : ℕ) : ℤ)
    simp only [genRecLoop]
    rw [if_neg (by simp [maxOccurrences, neverMatchingWeekly])]
    rw [hnext, hwd]
    simp only [neverMatchingWeekly, List.isEmpty_cons, Bool.not_false,
      List.contains_cons, List.contains_nil, Bool.or_false, Bool.and_true]
    rw [if_neg (by decide)]
    rw [if_pos (by decide)]
    exact ih (k + 1)

/-- C10 (refuted — the code loops forever): for the weekly pattern whose
day-of-week filter never matches (start on a Thursday, filter [Sunday], no
end date), the expansion loop never exits, whatever iteration bound the
fueled embedding is given. -/
theorem generateRecurringBookings_diverges (fuel : ℕ) :
    generateRecurringBookings fuel recurringParent neverMatchingWeekly 1 [] =
      none := by
  have h := genRecLoop_neverMatching fuel 0
  simpa [generateRecurringBookings, recurringParent] using h
